import Mathlib

/-!
Verification development for the futon compiler front end
(lexer, parser, type arena, type checker).

Each Rust source function is embedded as an executable Lean definition;
loops are embedded with an explicit evaluation bound (`fuel`) that callers
instantiate with a value at least the remaining input length, so the bound
is never reached on the real control paths.  Machine integers are embedded
as `Int`/`Nat`; `f32` literal values are embedded as exact rationals, which
agrees with IEEE semantics on every value that is exactly representable
(all floating-point values appearing in the claims are).  A Rust `panic!`
(`unwrap`, `unimplemented!`, `todo!`) is embedded as `Option.none` or a
dedicated `panicked` result.
-/

namespace Lex

/-! Embedding of `src/lexer.rs`. -/

/-- The keyword enumeration registered by the `keywords!` macro in lexer.rs. -/
inductive Keyword where
  | If | Else | For | While | Loop | Func | Yield | Return | Break | True | False | In
deriving DecidableEq

/-- The keyword registration table (`KEYWORDS` in lexer.rs). -/
def KEYWORDS : List (String × Keyword) :=
  [("if", .If), ("else", .Else), ("for", .For), ("while", .While),
   ("loop", .Loop), ("func", .Func), ("yield", .Yield), ("return", .Return),
   ("break", .Break), ("true", .True), ("false", .False), ("in", .In)]

/-- `Special` from lexer.rs: the value stored in a punctuation token. -/
inductive Special where
  | Single (c : Char)
  | Double (c1 c2 : Char)
  | Triple (c1 c2 c3 : Char)
deriving DecidableEq

/-- `TokenValue` from lexer.rs. -/
inductive TokenValue where
  | None
  | Special (s : Special)
  | Identifier
  | IntegralNumber (v : Int)
  | FloatingNumber (v : Rat)
  | String (s : List Char)
  | Keyword (k : Keyword)
deriving DecidableEq

/-- `Token` from lexer.rs; the lexeme is embedded as the slice's characters. -/
structure Token where
  value : TokenValue
  lexeme : List Char
  line : Nat
  column : Nat
deriving DecidableEq

/-- `Lexer` from lexer.rs.  `pos` is the index of the next unconsumed
character (the Rust `position`/`peeked` pair observably reduces to this,
since `position` is always resynchronised to the next peek index). -/
structure Lexer where
  source : List Char
  line : Nat
  column : Nat
  pos : Nat
  tab_size : Nat
deriving DecidableEq

/-- `Lexer::from_source`. -/
def from_source (s : List Char) : Lexer :=
  { source := s, line := 1, column := 1, pos := 0, tab_size := 4 }

/-- `Lexer::peek`. -/
def peekc (lx : Lexer) : Option Char :=
  lx.source.get? lx.pos

/-- `Lexer::advance`: consume one character, updating line/column. -/
def advancec (lx : Lexer) : Option (Char × Lexer) :=
  match peekc lx with
  | none => none
  | some ch =>
    let st :=
      if ch = '\n' then { lx with line := lx.line + 1, column := 1, pos := lx.pos + 1 }
      else if ch = '\t' then { lx with column := lx.column + lx.tab_size, pos := lx.pos + 1 }
      else { lx with column := lx.column + 1, pos := lx.pos + 1 }
    some (ch, st)

/-- Forced variant of `advancec` for call sites where the Rust code
`unwrap`s after a successful peek. -/
def advancef (lx : Lexer) : Lexer :=
  match advancec lx with
  | some (_, lx') => lx'
  | none => lx

/-- `Lexer::can_start_identifier` (alphabetic or underscore). -/
def can_start_identifier (ch : Char) : Bool :=
  ch.isAlpha || ch = '_'

/-- `Lexer::can_be_in_identifier` (alphanumeric or underscore). -/
def can_be_in_identifier (ch : Char) : Bool :=
  ch.isAlphanum || ch = '_'

/-- `Lexer::skip_space`: consume whitespace.  `fuel` bounds the iteration
count and is instantiated with the source length, which always suffices. -/
def skip_space : Nat → Lexer → Lexer
  | 0, lx => lx
  | fuel + 1, lx =>
    match peekc lx with
    | some ch => if ch.isWhitespace then skip_space fuel (advancef lx) else lx
    | none => lx

/-- The identifier scanning loop inside `match_keyword_or_identifier`. -/
def advance_while_in_identifier : Nat → Lexer → Lexer
  | 0, lx => lx
  | fuel + 1, lx =>
    match peekc lx with
    | some ch =>
      if can_be_in_identifier ch then advance_while_in_identifier fuel (advancef lx) else lx
    | none => lx

/-- `Lexer::take_slice_from`: the source slice from `idx_start` to the
current position. -/
def take_slice (src : List Char) (a b : Nat) : List Char :=
  (src.take b).drop a

/-- `Lexer::get_keyword`: linear lookup in the keyword table. -/
def get_keyword (text : List Char) : Option Keyword :=
  ((KEYWORDS.filter (fun p => p.1 = String.mk text)).map (fun p => p.2)).head?

/-- `Lexer::match_keyword_or_identifier`. -/
def match_keyword_or_identifier (lx : Lexer) : Token × Lexer :=
  let line := lx.line
  let column := lx.column
  let idx_start := lx.pos
  let lx' := advance_while_in_identifier lx.source.length lx
  let lexeme := take_slice lx'.source idx_start lx'.pos
  let kind :=
    match get_keyword lexeme with
    | some keyword => TokenValue.Keyword keyword
    | none => TokenValue.Identifier
  (⟨kind, lexeme, line, column⟩, lx')

/-- `LexerError` from lexer.rs. -/
inductive LexerError where
  | UnexpectedEndOfSource (line col : Nat)
deriving DecidableEq

/-- The character-collecting loop inside `Lexer::match_string`. -/
def match_string_loop : Nat → Lexer → List Char → Except LexerError (List Char × Lexer)
  | 0, lx, _ => .error (.UnexpectedEndOfSource lx.line lx.column)
  | fuel + 1, lx, acc =>
    match peekc lx with
    | some '"' => .ok (acc, advancef lx)
    | some ch => match_string_loop fuel (advancef lx) (acc ++ [ch])
    | none => .error (.UnexpectedEndOfSource lx.line lx.column)

/-- `Lexer::match_string`. -/
def match_string (lx : Lexer) : Except LexerError (Token × Lexer) :=
  let line := lx.line
  let column := lx.column
  let idx_start := lx.pos
  let lx1 := advancef lx
  match match_string_loop lx1.source.length lx1 [] with
  | .error e => .error e
  | .ok (s, lx2) =>
    .ok (⟨.String s, take_slice lx2.source idx_start lx2.pos, line, column⟩, lx2)

/-- `Lexer::match_special`: always a `Special::Single` of the first
character; the lexer never inspects the following character. -/
def match_special (first : Char) (lx : Lexer) : Token × Lexer :=
  let line := lx.line
  let column := lx.column
  let start_idx := lx.pos
  let lx1 := advancef lx
  let lexeme := take_slice lx1.source start_idx lx1.pos
  (⟨.Special (.Single first), lexeme, line, column⟩, lx1)

/-- `Lexer::match_end_of_source`. -/
def match_end_of_source (lx : Lexer) : Token :=
  ⟨.None, [], lx.line, lx.column⟩

/-- `Lexer::advance_while_digits`: consume digits and `'_'` separators. -/
def advance_while_digits : Nat → Lexer → Lexer
  | 0, lx => lx
  | fuel + 1, lx =>
    match peekc lx with
    | some ch =>
      if ch.isDigit || ch = '_' then advance_while_digits fuel (advancef lx) else lx
    | none => lx

/-- Numeric value of a digit run. -/
def digitsVal (s : List Char) : Nat :=
  s.foldl (fun a c => a * 10 + (c.toNat - '0'.toNat)) 0

/-- Model of Rust `i32::from_str`: an optional sign followed by one or
more ASCII digits and nothing else (no `'_'` separators), with the result
required to fit in 32-bit two's complement; every other input is `none`
(Rust returns `Err`, which `match_number` unwraps into a panic). -/
def parse_i32 (s : List Char) : Option Int :=
  let signed : Bool × List Char :=
    match s with
    | '-' :: rest => (true, rest)
    | '+' :: rest => (false, rest)
    | _ => (false, s)
  let neg := signed.1
  let ds := signed.2
  if ds = [] then none
  else if ¬ ds.all Char.isDigit then none
  else
    let i : Int := if neg then -(digitsVal ds : Int) else (digitsVal ds : Int)
    if -(2 ^ 31) ≤ i ∧ i ≤ 2 ^ 31 - 1 then some i else none

/-- Model of Rust `f32::from_str` on the numeric grammar
`[sign] digits [. digits] [(e|E) [sign] digits]`, as the exact rational
value of the decimal text `ip.fp × 10^e`, built as one normalized
fraction; `'_'` separators and any other stray character are rejected
(`none`), as Rust does.  The special spellings `inf`/`nan` cannot reach
`match_number` (its lexeme always starts with a digit) and are omitted.
On exactly representable results (all that the claims use) the exact
rational equals the IEEE `f32` value. -/
def parse_f32_exact (s : List Char) : Option Rat :=
  let signed : Bool × List Char :=
    match s with
    | '-' :: rest => (true, rest)
    | '+' :: rest => (false, rest)
    | _ => (false, s)
  let neg := signed.1
  let body := signed.2
  let mantExp := body.span (fun c => c != 'e' && c != 'E')
  let mant := mantExp.1
  let expPart : Option (List Char) :=
    match mantExp.2 with
    | [] => none
    | _ :: r => some r
  let intFrac := mant.span (fun c => c != '.')
  let ip := intFrac.1
  let fp := match intFrac.2 with
    | [] => []
    | _ :: r => r
  if ¬ ip.all Char.isDigit then none
  else if ¬ fp.all Char.isDigit then none
  else if ip = [] ∧ fp = [] then none
  else
    let expVal : Option Int :=
      match expPart with
      | none => some 0
      | some echars =>
        let esigned : Bool × List Char :=
          match echars with
          | '-' :: r => (true, r)
          | '+' :: r => (false, r)
          | _ => (false, echars)
        if esigned.2 = [] then none
        else if ¬ esigned.2.all Char.isDigit then none
        else if esigned.1 then some (-(digitsVal esigned.2 : Int))
        else some (digitsVal esigned.2 : Int)
    match expVal with
    | none => none
    | some e =>
      let mantissa : Int := (digitsVal ip : Int) * 10 ^ fp.length + (digitsVal fp : Int)
      let num : Int := mantissa * 10 ^ (max e 0).toNat
      let den : Nat := 10 ^ fp.length * 10 ^ (max (-e) 0).toNat
      some (if neg then mkRat (-num) den else mkRat num den)

/-- `Lexer::match_number`.  `none` is the panic of the `unwrap` on a
failed `parse::<i32>`/`parse::<f32>`. -/
def match_number (lx : Lexer) : Option (Token × Lexer) :=
  let line := lx.line
  let column := lx.column
  let idx_start := lx.pos
  let lx1 := advance_while_digits lx.source.length lx
  let afterDot : Bool × Lexer :=
    match peekc lx1 with
    | some '.' => (true, advance_while_digits lx1.source.length (advancef lx1))
    | _ => (false, lx1)
  let is_floating1 := afterDot.1
  let lx2 := afterDot.2
  let afterE : Bool × Lexer :=
    match peekc lx2 with
    | some 'e' => (true, advancef lx2)
    | some 'E' => (true, advancef lx2)
    | _ => (false, lx2)
  let has_exponent := afterE.1
  let lx3 := afterE.2
  let afterExp : Bool × Lexer :=
    if has_exponent then
      let lx3' :=
        match peekc lx3 with
        | some '+' => advancef lx3
        | some '-' => advancef lx3
        | _ => lx3
      (true, advance_while_digits lx3'.source.length lx3')
    else (is_floating1, lx3)
  let is_floating := afterExp.1
  let lx4 := afterExp.2
  let lexeme := take_slice lx4.source idx_start lx4.pos
  if is_floating then
    (parse_f32_exact lexeme).map (fun v => (⟨.FloatingNumber v, lexeme, line, column⟩, lx4))
  else
    (parse_i32 lexeme).map (fun v => (⟨.IntegralNumber v, lexeme, line, column⟩, lx4))

/-- Result of one `Lexer::next` call: a token, a lexer error, or a panic
(`unwrap` failure inside `match_number`). -/
inductive LexResult where
  | ok (t : Token) (lx : Lexer)
  | err (e : LexerError)
  | panicked
deriving DecidableEq

/-- `Lexer::next`. -/
def next (lx0 : Lexer) : LexResult :=
  let lx := skip_space lx0.source.length lx0
  match peekc lx with
  | some ch =>
    if can_start_identifier ch then
      let r := match_keyword_or_identifier lx
      .ok r.1 r.2
    else if ch.isDigit then
      match match_number lx with
      | some (t, lx') => .ok t lx'
      | none => .panicked
    else if ch = '"' then
      match match_string lx with
      | .ok (t, lx') => .ok t lx'
      | .error e => .err e
    else
      let r := match_special ch lx
      .ok r.1 r.2
  | none => .ok (match_end_of_source lx) lx

end Lex

namespace Ast

/-! Modelled from the spec: the untyped syntax tree (`src/ast.rs` is not
part of the sources; its shape is pinned down by §3 "Untyped tree" of the
spec and by every pattern match in parser.rs and typeck.rs). -/

/-- `ast::Operator`. -/
inductive Operator where
  | Add | Sub | Mul | Div
  | Negate | Ref | Deref
  | Less | LessEqual | Greater | GreaterEqual | Equal | NotEqual
deriving DecidableEq

/-- `ast::Expression`.  Numeric literals are embedded as `Int`/`Rat`.
The constructor names `InfixE`/`PrefixE`/`BoolE`/`RangeE` carry a suffix
only to keep Lean identifiers well-formed; they embed `Infix`, `Prefix`,
`Bool` and `Range`. -/
inductive Expression where
  | Identifier (name : String)
  | Integer (v : Int)
  | Float (v : Rat)
  | BoolE (b : Bool)
  | InfixE (op : Operator) (lhs rhs : Expression)
  | PrefixE (op : Operator) (e : Expression)
  | Place (base field : Expression)
  | Index (base index : Expression)
  | Array (items : List Expression)
  | Call (callee : Expression) (args : List Expression)
  | Tuple (items : List Expression)
  | RangeE (lo : Expression) (hi : Option Expression)
  | Var (v : Nat)

/-- `ast::Type` as consumed by `typeck::unify` (`Type` is reserved in
Lean, hence the prime). -/
inductive Type' where
  | Name (s : String)
  | Tuple (ts : List Type')
  | Pointer (t : Type')
  | Array (len : Nat) (t : Type')
  | Slice (t : Type')
  | Unit
  | Function (args : List Type') (ret : Type')

/-- A function parameter (`name`, `r#type`) as consumed by typeck.rs. -/
structure Param where
  name : String
  type : Type'

/-- `ast::Item` as consumed by typeck.rs. -/
inductive Item where
  | Let (name : String) (type : Option Type') (expr : Option Expression)
  | Assignment (lhs : Expression) (operator : Option Operator) (expr : Expression)
  | Expr (expr : Expression)
  | Function (name : String) (params : List Param) (ty : Type') (body : List Item)
  | Struct (name : String)
  | If (condition : Expression) (arm_true : List Item) (arm_false : Option (List Item))
  | ForIn (name : String) (expr : Expression) (body : List Item)
  | Loop (body : List Item)
  | Break
  | Yield (e : Expression)
  | Return (e : Expression)
  | Block (body : List Item)

end Ast

/-- `TyS` from `src/ty.rs` (the file itself is not under the sources).
Modelled from the spec: §3 "Ty (type descriptor)" lists exactly these
variants; recursive positions are interned references in Rust, embedded
here as the referenced shapes (the derived `PartialEq` on `TyS` compares
through references structurally, which this embedding preserves). -/
inductive TyS where
  | Bool
  | I32
  | U32
  | F32
  | Unit
  | Array (len : Nat) (elem : TyS)
  | Slice (elem : TyS)
  | Tuple (elems : List TyS)
  | Pointer (inner : TyS)
  | Function (args : List TyS) (ret : TyS)
  | Other (name : String)
  | Range
  | Any
  | Unknown
  | Error

/-! Structural equality on `TyS`, mirroring the derived `PartialEq`
(which compares through interned references structurally). -/

mutual
/-- Structural equality test on type shapes (`TyS`'s `PartialEq`). -/
def tyBeq : TyS → TyS → Bool
  | .Bool, .Bool => true
  | .I32, .I32 => true
  | .U32, .U32 => true
  | .F32, .F32 => true
  | .Unit, .Unit => true
  | .Array l1 t1, .Array l2 t2 => l1 = l2 && tyBeq t1 t2
  | .Slice t1, .Slice t2 => tyBeq t1 t2
  | .Tuple ts1, .Tuple ts2 => tyBeqList ts1 ts2
  | .Pointer t1, .Pointer t2 => tyBeq t1 t2
  | .Function a1 r1, .Function a2 r2 => tyBeqList a1 a2 && tyBeq r1 r2
  | .Other n1, .Other n2 => n1 = n2
  | .Range, .Range => true
  | .Any, .Any => true
  | .Unknown, .Unknown => true
  | .Error, .Error => true
  | _, _ => false

/-- Elementwise structural equality of type-shape lists (`Vec<Ty>`'s
`PartialEq`). -/
def tyBeqList : List TyS → List TyS → Bool
  | [], [] => true
  | t1 :: ts1, t2 :: ts2 => tyBeq t1 t2 && tyBeqList ts1 ts2
  | _, _ => false
end

namespace Par

/-! Embedding of `src/parser.rs`.  The parser consumes tokens through the
`MultiPeek` lookahead buffer; the token stream is embedded as a list, with
`peek` past the end returning `EndOfSource` (pulling past end of source
keeps yielding `EndOfSource`).  The token type it consumes (`Punct` with a
`PunctKind` spacing tag) is the interface imported from the lexer module by
parser.rs and main.rs; that lexer version is not among the sources, so the
token model below is modelled from the spec (§3 "Punctuation spacing") and
from every accessor parser.rs calls. -/

/-- `PunctKind` as used by parser.rs: the spacing tag of a punctuation
token.  Modelled from the spec: Joint means the immediately following
source character, with no intervening whitespace, is also punctuation. -/
inductive PunctKind where
  | Single
  | Joint
deriving DecidableEq

/-- The keyword enumeration referenced by parser.rs. -/
inductive PKeyword where
  | If | Else | For | Loop | Fn | Yield | Return | Break | True | False | In
  | Extern | Struct | Let | Range
deriving DecidableEq

/-- `TokenType` as matched by parser.rs. -/
inductive TokenType where
  | Punct (c : Char)
  | Identifier
  | IntegralNumber
  | FloatingNumber
  | StringLit
  | Keyword (k : PKeyword)
  | EndOfSource
deriving DecidableEq

/-- The payload of one token as observed by parser.rs through
`get_type` / `get_punct` / `get_integer` / `get_float` / `as_string`. -/
inductive PTokVal where
  | punct (c : Char) (k : PunctKind)
  | ident (s : String)
  | int (n : Int)
  | float (q : Rat)
  | strlit (s : String)
  | kw (k : PKeyword)
  | eos
deriving DecidableEq

/-- A token of the stream parser.rs consumes, with its source position. -/
structure PTok where
  val : PTokVal
  line : Nat
  col : Nat
deriving DecidableEq

/-- `Token::get_type`. -/
def PTok.get_type (t : PTok) : TokenType :=
  match t.val with
  | .punct c _ => .Punct c
  | .ident _ => .Identifier
  | .int _ => .IntegralNumber
  | .float _ => .FloatingNumber
  | .strlit _ => .StringLit
  | .kw k => .Keyword k
  | .eos => .EndOfSource

/-- `Token::get_punct`. -/
def PTok.get_punct (t : PTok) : Option (Char × PunctKind) :=
  match t.val with
  | .punct c k => some (c, k)
  | _ => none

/-- The `EndOfSource` token yielded when peeking past the end. -/
def eosTok : PTok := ⟨.eos, 0, 0⟩

/-- The buffered token stream. -/
abbrev TokStream := List PTok

/-- `MultiPeek::peek(offset)`. -/
def peekTok (st : TokStream) (n : Nat) : PTok :=
  (st.get? n).getD eosTok

/-- `MultiPeek::advance`: consume and return the next token. -/
def advanceTok (st : TokStream) : PTok × TokStream :=
  match st with
  | [] => (eosTok, [])
  | t :: r => (t, r)

/-- `ParseError` from parser.rs. -/
inductive ParseError where
  | UnexpectedToken (actual : TokenType) (line col : Nat) (expected : Option TokenType)
  | Custom (msg : String)
deriving DecidableEq

/-- `Parser::get_precedence`. -/
def get_precedence (token : PTok) : Int :=
  match token.get_type with
  | .Punct '+' => 1
  | .Punct '-' => 1
  | .Punct '*' => 2
  | .Punct '/' => 2
  | .Punct '.' => 3
  | _ => 0

/-- `Parser::is_left_associative`. -/
def is_left_associative (token : PTok) : Bool :=
  match token.get_type with
  | .Punct '-' => true
  | .Punct '.' => true
  | _ => false

/-- `Parser::match_punct`: consume the next token only when it is the
given punctuation character with the given spacing. -/
def match_punct (kind : PunctKind) (ch : Char) (st : TokStream) : Bool × TokStream :=
  if (peekTok st 0).get_punct = some (ch, kind) then (true, (advanceTok st).2)
  else (false, st)

/-- `Parser::match_one`: the given character with either spacing. -/
def match_one (ch : Char) (st : TokStream) : Bool × TokStream :=
  let r := match_punct .Single ch st
  if r.1 then r else match_punct .Joint ch st

/-- `Parser::expected`: build an `UnexpectedToken` error at the current
token. -/
def expectedErr (token_type : TokenType) (st : TokStream) : ParseError :=
  let token := peekTok st 0
  .UnexpectedToken token.get_type token.line token.col (some token_type)

/-- `Parser::expect_punct`. -/
def expect_punct (kind : PunctKind) (ch : Char) (st : TokStream) :
    Except ParseError TokStream :=
  let r := match_punct kind ch st
  if r.1 then .ok r.2 else .error (expectedErr (.Punct ch) st)

/-- `Parser::expect_one`: try `Single` spacing, then `Joint`. -/
def expect_one (ch : Char) (st : TokStream) : Except ParseError TokStream :=
  match expect_punct .Single ch st with
  | .ok st' => .ok st'
  | .error _ => expect_punct .Joint ch st

/-- The scan of `Parser::match_many` over the expected characters
(the `for` loop before any token is consumed).  When a peeked token is
not punctuation at all the Rust `if let` falls through and the loop
continues — that quirk is preserved. -/
def match_many_go : List Char → Nat → TokStream → Bool
  | [], _, _ => true
  | c :: cs, i, st =>
    match (peekTok st i).get_punct with
    | some (actual, kind) =>
      if actual ≠ c then false
      else
        match kind, cs with
        | .Single, _ :: _ => false
        | _, _ => match_many_go cs (i + 1) st
    | none => match_many_go cs (i + 1) st

/-- Drop `n` tokens (the advance loop at the end of `match_many`). -/
def advanceN : Nat → TokStream → TokStream
  | 0, st => st
  | n + 1, st => advanceN n (advanceTok st).2

/-- `Parser::match_many`. -/
def match_many (chars : List Char) (st : TokStream) : Bool × TokStream :=
  if match_many_go chars 0 st then (true, advanceN chars.length st)
  else (false, st)

/-- Message of the `Custom` error produced by `Parser::parse_expr` when
`parse_expr_opt` yields no expression. -/
def missingExprMsg : String := "missing expression"

/-- Marker for exhaustion of the structural evaluation bound; never
produced when `fuel` is at least the number of remaining tokens. -/
def fuelMsg : String := "fuel exhausted"

/-- The `ok_or` in `Parser::parse_expr`: a missing expression becomes a
`Custom("missing expression")` error. -/
def require_expr (r : Except ParseError (Option Ast.Expression × TokStream)) :
    Except ParseError (Ast.Expression × TokStream) :=
  match r with
  | .error e => .error e
  | .ok (none, _) => .error (.Custom missingExprMsg)
  | .ok (some e, st) => .ok (e, st)

/-- The loop of `Parser::parse_comma_separated_exprs`, abstracted over the
expression parser `pe` (which parser.rs calls at precedence 0). -/
def parse_comma_separated_core :
    Nat → (TokStream → Except ParseError (Ast.Expression × TokStream)) →
    TokStream → Except ParseError (List Ast.Expression × TokStream)
  | 0, _, _ => .error (.Custom fuelMsg)
  | fuel + 1, pe, st =>
    match pe st with
    | .error e => .error e
    | .ok (value, st1) =>
      let r := match_one ',' st1
      if r.1 then
        match parse_comma_separated_core fuel pe r.2 with
        | .error e => .error e
        | .ok (vs, st2) => .ok (value :: vs, st2)
      else .ok ([value], r.2)

/-- The bracketed array-literal loop inside `Parser::parse_expr_opt`
(`Punct('[')` primary). -/
def parse_array_elems :
    Nat → (TokStream → Except ParseError (Ast.Expression × TokStream)) →
    TokStream → Except ParseError (List Ast.Expression × TokStream)
  | 0, _, _ => .error (.Custom fuelMsg)
  | fuel + 1, pe, st =>
    let r := match_one ']' st
    if r.1 then .ok ([], r.2)
    else
      match pe r.2 with
      | .error e => .error e
      | .ok (v, st1) =>
        let r2 := match_one ',' st1
        match parse_array_elems fuel pe r2.2 with
        | .error e => .error e
        | .ok (vs, st2) => .ok (v :: vs, st2)

/-- The precedence-climbing operator loop of `Parser::parse_expr_opt`,
abstracted over the recursive expression parser `pe`.  Returning `(expr,
stream)` covers both the `break`s (which fall through to `Ok(Some(expr))`)
and the early `return Ok(Some(expr))` on a bare `=`. -/
def parse_expr_loop :
    Nat → (Int → TokStream → Except ParseError (Ast.Expression × TokStream)) →
    Int → Ast.Expression → TokStream →
    Except ParseError (Ast.Expression × TokStream)
  | 0, _, _, _, _ => .error (.Custom fuelMsg)
  | fuel + 1, pe, precedence, expr, st =>
    let token := peekTok st 0
    let new_precedence := get_precedence token
    if new_precedence < precedence ∨
        (new_precedence = precedence ∧ is_left_associative token) then
      .ok (expr, st)
    else
      match token.val with
      | .punct '+' _ | .punct '-' _ | .punct '*' _ | .punct '/' _ =>
        if (peekTok st 1).get_type = .Punct '=' then .ok (expr, st)
        else
          let adv := advanceTok st
          let op : Ast.Operator :=
            match adv.1.get_type with
            | .Punct '+' => .Add
            | .Punct '-' => .Sub
            | .Punct '*' => .Mul
            | _ => .Div
          match pe new_precedence adv.2 with
          | .error e => .error e
          | .ok (rhs, st2) => parse_expr_loop fuel pe precedence (.InfixE op expr rhs) st2
      | .punct '.' _ =>
        let st1 := (advanceTok st).2
        match pe new_precedence st1 with
        | .error e => .error e
        | .ok (rhs, st2) => parse_expr_loop fuel pe precedence (.Place expr rhs) st2
      | .punct '<' _ | .punct '>' _ | .punct '!' _ | .punct '=' _ =>
        let first := peekTok st 0
        let second := peekTok st 1
        let is_joint : Bool :=
          match first.get_punct with
          | some (_, .Joint) => true
          | _ => false
        let sel : Except ParseError (Option Ast.Operator) :=
          match first.get_type, second.get_type, is_joint with
          | .Punct '<', .Punct '=', true => .ok (some .LessEqual)
          | .Punct '<', .Punct '>', true => .ok (some .NotEqual)
          | .Punct '>', .Punct '=', true => .ok (some .GreaterEqual)
          | .Punct '<', _, _ => .ok (some .Less)
          | .Punct '>', _, _ => .ok (some .Greater)
          | .Punct '=', .Punct '=', true => .ok (some .Equal)
          | .Punct '!', .Punct '=', true => .ok (some .NotEqual)
          | .Punct '=', _, _ => .ok none
          | _, _, _ => .error (.UnexpectedToken second.get_type second.line second.col none)
        match sel with
        | .error e => .error e
        | .ok none => .ok (expr, st)
        | .ok (some op) =>
          let st1 :=
            if op = .Less ∨ op = .Greater then (advanceTok st).2
            else (advanceTok (advanceTok st).2).2
          match pe new_precedence st1 with
          | .error e => .error e
          | .ok (rhs, st2) => parse_expr_loop fuel pe precedence (.InfixE op expr rhs) st2
      | .punct '(' _ =>
        let st1 := (advanceTok st).2
        match parse_comma_separated_core fuel (pe 0) st1 with
        | .error e => .error e
        | .ok (args, st2) =>
          match expect_one ')' st2 with
          | .error e => .error e
          | .ok st3 => parse_expr_loop fuel pe precedence (.Call expr args) st3
      | _ => .ok (expr, st)

/-- `Parser::parse_expr_opt`: a primary production selected by the leading
token, followed by the precedence-climbing loop. -/
def parse_expr_opt :
    Nat → Int → TokStream → Except ParseError (Option Ast.Expression × TokStream)
  | 0, _, _ => .error (.Custom fuelMsg)
  | fuel + 1, precedence, st =>
    let token := peekTok st 0
    let pe : Int → TokStream → Except ParseError (Ast.Expression × TokStream) :=
      fun p s => require_expr (parse_expr_opt fuel p s)
    let prim : Except ParseError (Option (Ast.Expression × TokStream)) :=
      match token.val with
      | .punct '-' _ | .punct '&' _ | .punct '*' _ =>
        let st1 := (advanceTok st).2
        let op : Ast.Operator :=
          match token.get_type with
          | .Punct '-' => .Negate
          | .Punct '&' => .Ref
          | _ => .Deref
        match pe 10 st1 with
        | .error e => .error e
        | .ok (operand, st2) => .ok (some (.PrefixE op operand, st2))
      | .kw .Range =>
        let st1 := (advanceTok st).2
        match pe 10 st1 with
        | .error e => .error e
        | .ok (operand, st2) => .ok (some (.RangeE operand none, st2))
      | .ident s => .ok (some (.Identifier s, (advanceTok st).2))
      | .int n => .ok (some (.Integer n, (advanceTok st).2))
      | .float q => .ok (some (.Float q, (advanceTok st).2))
      | .kw .True => .ok (some (.BoolE true, (advanceTok st).2))
      | .kw .False => .ok (some (.BoolE false, (advanceTok st).2))
      | .punct '(' _ =>
        let st1 := (advanceTok st).2
        match parse_comma_separated_core fuel (pe 0) st1 with
        | .error e => .error e
        | .ok (values, st2) =>
          match expect_one ')' st2 with
          | .error e => .error e
          | .ok st3 =>
            let v : Ast.Expression :=
              match values with
              | [v] => v
              | _ => .Tuple values
            .ok (some (v, st3))
      | .punct '[' _ =>
        let st1 := (advanceTok st).2
        match parse_array_elems fuel (pe 0) st1 with
        | .error e => .error e
        | .ok (values, st2) => .ok (some (.Array values, st2))
      | _ => .ok none
    match prim with
    | .error e => .error e
    | .ok none => .ok (none, st)
    | .ok (some (lhs, st1)) =>
      match parse_expr_loop fuel pe precedence lhs st1 with
      | .error e => .error e
      | .ok (e, st2) => .ok (some e, st2)

/-- `Parser::parse_expr`. -/
def parse_expr (fuel : Nat) (precedence : Int) (st : TokStream) :
    Except ParseError (Ast.Expression × TokStream) :=
  require_expr (parse_expr_opt fuel precedence st)

/-- `Parser::parse_comma_separated_exprs`. -/
def parse_comma_separated_exprs (fuel : Nat) (st : TokStream) :
    Except ParseError (List Ast.Expression × TokStream) :=
  parse_comma_separated_core fuel (parse_expr fuel 0) st

/-- Modelled from the spec: `Arena::find` of `src/arena.rs` (absent from
the sources; parser.rs is its caller).  The arena is an append-only store
of type shapes; `find` returns the handle (index) of the first
structurally equal shape already allocated, if any. -/
def arena_find : List TyS → TyS → Option Nat
  | [], _ => none
  | x :: xs, t => if tyBeq x t then some 0 else (arena_find xs t).map (· + 1)

/-- Modelled from the spec: `Arena::alloc` of `src/arena.rs` — appends the
shape and returns its fresh handle. -/
def arena_alloc (a : List TyS) (t : TyS) : List TyS × Nat :=
  (a ++ [t], a.length)

/-- `Parser::make_ty`: return the existing instance when a structurally
equal one was already allocated, else allocate.  Two handles are equal
exactly when the Rust references are reference-equal. -/
def make_ty (a : List TyS) (t : TyS) : List TyS × Nat :=
  match arena_find a t with
  | some i => (a, i)
  | none => arena_alloc a t

/-- An interned type as parse_ty returns it: the shape together with the
arena handle standing for the Rust `Ty<'tcx>` reference. -/
structure TyRef where
  shape : TyS
  idx : Nat

/-- Marker for the `unimplemented!()` panic in `parse_ty`'s default arm;
no claim path reaches it. -/
def unimplementedTyMsg : String := "panic: unimplemented type"

/-- The loop of `Parser::parse_ty_tuple`, abstracted over the recursive
type parser `pt`. -/
def parse_ty_tuple_core :
    Nat → (TokStream → List TyS → Except ParseError (TyRef × TokStream × List TyS)) →
    TokStream → List TyS → Except ParseError (List TyRef × TokStream × List TyS)
  | 0, _, _, _ => .error (.Custom fuelMsg)
  | fuel + 1, pt, st, a =>
    let r := match_one ')' st
    if r.1 then .ok ([], r.2, a)
    else
      match pt r.2 a with
      | .error e => .error e
      | .ok (ty, st1, a1) =>
        let r2 := match_one ',' st1
        if r2.1 then
          match parse_ty_tuple_core fuel pt r2.2 a1 with
          | .error e => .error e
          | .ok (tys, st2, a2) => .ok (ty :: tys, st2, a2)
        else
          match expect_one ')' r2.2 with
          | .error e => .error e
          | .ok st2 => .ok ([ty], st2, a1)

/-- `Parser::parse_ty`: parse a type expression and resolve it through
`make_ty`.  The array length comes from `get_integer().unwrap() as usize`;
the lexer never produces negative integer tokens, so `Int.toNat` is
faithful on every reachable token. -/
def parse_ty :
    Nat → TokStream → List TyS → Except ParseError (TyRef × TokStream × List TyS)
  | 0, _, _ => .error (.Custom fuelMsg)
  | fuel + 1, st, a =>
    let adv := advanceTok st
    let token := adv.1
    let st1 := adv.2
    let shaped : Except ParseError (TyS × TokStream × List TyS) :=
      match token.val with
      | .punct '[' _ =>
        let t2 := peekTok st1 0
        let lenState : Option Nat × TokStream :=
          match t2.val with
          | .int n => (some n.toNat, (advanceTok st1).2)
          | _ => (none, st1)
        match expect_one ']' lenState.2 with
        | .error e => .error e
        | .ok st2 =>
          match parse_ty fuel st2 a with
          | .error e => .error e
          | .ok (elem, st3, a1) =>
            match lenState.1 with
            | some l => .ok (.Array l elem.shape, st3, a1)
            | none => .ok (.Slice elem.shape, st3, a1)
      | .punct '*' _ =>
        match parse_ty fuel st1 a with
        | .error e => .error e
        | .ok (inner, st2, a1) => .ok (.Pointer inner.shape, st2, a1)
      | .ident s =>
        if s = "bool" then .ok (.Bool, st1, a)
        else if s = "i32" then .ok (.I32, st1, a)
        else if s = "u32" then .ok (.U32, st1, a)
        else .ok (.Other s, st1, a)
      | .kw .Fn =>
        match expect_one '(' st1 with
        | .error e => .error e
        | .ok st2 =>
          match parse_ty_tuple_core fuel (parse_ty fuel) st2 a with
          | .error e => .error e
          | .ok (args, st3, a1) =>
            let arrow := match_many ['-', '>'] st3
            if arrow.1 then
              match parse_ty fuel arrow.2 a1 with
              | .error e => .error e
              | .ok (ret, st4, a2) =>
                .ok (.Function (args.map TyRef.shape) ret.shape, st4, a2)
            else
              let r := make_ty a1 .Unit
              .ok (.Function (args.map TyRef.shape) .Unit, st3, r.1)
      | .punct '(' _ =>
        match parse_ty_tuple_core fuel (parse_ty fuel) st1 a with
        | .error e => .error e
        | .ok (types, st2, a1) => .ok (.Tuple (types.map TyRef.shape), st2, a1)
      | _ => .error (.Custom unimplementedTyMsg)
    match shaped with
    | .error e => .error e
    | .ok (shape, st', a') =>
      let r := make_ty a' shape
      .ok (⟨shape, r.2⟩, st', r.1)

end Par

namespace Tyck

/-! Embedding of `src/typeck.rs`. -/

mutual
/-- `is_compatible_to` from typeck.rs, arm for arm in source order. -/
def is_compatible_to : TyS → TyS → Bool
  | .Bool, .Bool => true
  | .U32, .U32 => true
  | .I32, .I32 => true
  | .F32, .F32 => true
  | .Array len1 ty1, .Array len2 ty2 => len1 = len2 && is_compatible_to ty1 ty2
  | .Array _ ty1, .Slice ty2 => is_compatible_to ty1 ty2
  | .Slice ty1, .Slice ty2 => is_compatible_to ty1 ty2
  | .Unit, .Unit => true
  | .Tuple ty1, .Tuple ty2 => ty1.length = ty2.length && compat_zip_all ty1 ty2
  | .Function args1 ret1, .Function args2 ret2 =>
    if args1.length ≠ args2.length then false
    else if ¬ is_compatible_to ret1 ret2 then false
    else compat_zip_all args1 args2
  | .Pointer ty1, .Pointer ty2 => is_compatible_to ty1 ty2
  | .Other name1, .Other name2 => name1 = name2
  | .Any, _ => true
  | _, .Any => true
  | _, _ => false

/-- The `zip(..).all(..)` pairwise test used by the `Tuple` and `Function`
arms of `is_compatible_to` (`zip` stops at the shorter list; `all` of the
empty rest is `true`). -/
def compat_zip_all : List TyS → List TyS → Bool
  | t1 :: ts1, t2 :: ts2 => is_compatible_to t1 t2 && compat_zip_all ts1 ts2
  | _, _ => true
end

mutual
/-- `TypedExpression` from typeck.rs: an expression paired with its
resolved type. -/
inductive TypedExpression where
  | mk (ty : TyS) (expr : TExpr)

/-- The typed `Expression` from typeck.rs (suffixed names as in
`Ast.Expression`). -/
inductive TExpr where
  | Identifier (s : String)
  | Integer (v : Int)
  | Float (v : Rat)
  | BoolE (b : Bool)
  | InfixE (op : Ast.Operator) (lhs rhs : TypedExpression)
  | PrefixE (op : Ast.Operator) (e : TypedExpression)
  | Index (base index : TypedExpression)
  | Array (items : List TypedExpression)
  | Call (callee : TypedExpression) (args : List TypedExpression)
  | Tuple (items : List TypedExpression)
  | RangeE (lo : TypedExpression) (hi : Option TypedExpression)
  | Error
  | Var (v : Nat)
end

/-- The `ty` field of `TypedExpression`. -/
def TypedExpression.ty : TypedExpression → TyS
  | .mk t _ => t

/-- The `expr` field of `TypedExpression`. -/
def TypedExpression.expr : TypedExpression → TExpr
  | .mk _ e => e

/-- The name→type environment (`locals: HashMap<&str, Ty>`), embedded as
an association list: `insert` prepends, `get` takes the most recent
binding — observably the map's insert/get. -/
abbrev Env := List (String × TyS)

/-- `HashMap::get`. -/
def envGet : Env → String → Option TyS
  | [], _ => none
  | (k, v) :: r, name => if k = name then some v else envGet r name

/-- `HashMap::insert`. -/
def envInsert (e : Env) (k : String) (v : TyS) : Env :=
  (k, v) :: e

/-- The element loop of the `Array` arm of `deduce_expr_ty`, abstracted
over the recursive deduction `d`.  Outer `none` is a panic inside an
element; inner `none` is the early `return` of an `Error`-typed result on
an incompatible element. -/
def deduce_array_rest (d : Ast.Expression → Option TypedExpression)
    (item_ty : TyS) : List Ast.Expression → Option (Option (List TypedExpression))
  | [] => some (some [])
  | e :: es =>
    match d e with
    | none => none
    | some te =>
      if is_compatible_to te.ty item_ty then
        (deduce_array_rest d item_ty es).map (Option.map (te :: ·))
      else some none

/-- The `args.iter().zip(args_ty)` loop of the `Call` arm: positional
matching that silently stops at the shorter side.  Outer `none` is a panic
inside an argument; inner `none` is the early `Error`-typed return on an
incompatible argument. -/
def deduce_call_args (d : Ast.Expression → Option TypedExpression) :
    List Ast.Expression → List TyS → Option (Option (List TypedExpression))
  | arg :: args, expected :: expecteds =>
    match d arg with
    | none => none
    | some te =>
      if is_compatible_to te.ty expected then
        (deduce_call_args d args expecteds).map (Option.map (te :: ·))
      else some none
  | _, _ => some (some [])

/-- The element loop of the `Tuple` arm. -/
def deduce_tuple_items (d : Ast.Expression → Option TypedExpression) :
    List Ast.Expression → Option (List TypedExpression)
  | [] => some []
  | e :: es =>
    match d e with
    | none => none
    | some te => (deduce_tuple_items d es).map (te :: ·)

/-- `deduce_expr_ty` from typeck.rs.  The arena parameter is dropped: the
Rust code only uses it to allocate the shapes written here directly.
`none` is a panic (`unimplemented!`/`unreachable!`/`unwrap_or_else(panic!)`),
or exhaustion of the structural evaluation bound `fuel` (always taken
larger than the expression depth in the theorems below). -/
def deduce_expr_ty : Nat → Ast.Expression → Env → Option TypedExpression
  | 0, _, _ => none
  | fuel + 1, expr, locals =>
    match expr with
    | .Integer val => some (.mk .I32 (.Integer val))
    | .Float val => some (.mk .F32 (.Float val))
    | .BoolE val => some (.mk .Bool (.BoolE val))
    | .InfixE op l r =>
      match deduce_expr_ty fuel l locals, deduce_expr_ty fuel r locals with
      | some lhs, some rhs =>
        let ty : Option TyS :=
          if ¬ is_compatible_to lhs.ty rhs.ty then some .Error
          else
            match op with
            | .Less | .LessEqual | .Greater | .GreaterEqual | .Equal | .NotEqual =>
              some .Bool
            | .Add | .Sub | .Mul | .Div => some lhs.ty
            | .Negate | .Ref | .Deref => none
        ty.map (fun t => .mk t (.InfixE op lhs rhs))
      | _, _ => none
    | .PrefixE op e =>
      match deduce_expr_ty fuel e locals with
      | none => none
      | some inner =>
        let ty : Option TyS :=
          match op with
          | .Ref => some (.Pointer inner.ty)
          | .Deref => none
          | _ => some inner.ty
        ty.map (fun t => .mk t (.PrefixE op inner))
    | .Identifier ident =>
      let ty : TyS :=
        match envGet locals ident with
        | some ty => ty
        | none => .Error
      some (.mk ty (.Identifier ident))
    | .Place _ _ => none
    | .Array items =>
      match items with
      | [] => some (.mk .Unknown .Error)
      | first :: rest =>
        match deduce_expr_ty fuel first locals with
        | none => none
        | some f =>
          let item_ty := f.ty
          match deduce_array_rest (fun e => deduce_expr_ty fuel e locals) item_ty rest with
          | none => none
          | some none => some (.mk .Error .Error)
          | some (some values) =>
            some (.mk (.Array items.length item_ty) (.Array (f :: values)))
    | .Call callee args =>
      match deduce_expr_ty fuel callee locals with
      | none => none
      | some ce =>
        match ce.expr with
        | .Identifier ident =>
          let callee_ty : Option TyS :=
            if ident = "debug" then some (.Function [.Any] .Unit)
            else envGet locals ident
          match callee_ty with
          | none => none
          | some cty =>
            match cty with
            | .Function args_ty ret_ty =>
              match deduce_call_args (fun e => deduce_expr_ty fuel e locals) args args_ty with
              | none => none
              | some none => some (.mk .Error .Error)
              | some (some values) => some (.mk ret_ty (.Call ce values))
            | _ => some (.mk .Error .Error)
        | _ => none
    | .RangeE from_ (some hi) =>
      match deduce_expr_ty fuel from_ locals, deduce_expr_ty fuel hi locals with
      | some f, some t =>
        if ¬ is_compatible_to f.ty t.ty then some (.mk .Error .Error)
        else some (.mk .Range (.RangeE f (some t)))
      | _, _ => none
    | .RangeE _ none => none
    | .Tuple items =>
      match deduce_tuple_items (fun e => deduce_expr_ty fuel e locals) items with
      | none => none
      | some values =>
        some (.mk (.Tuple (values.map TypedExpression.ty)) (.Tuple values))
    | .Index arr index_expr =>
      match deduce_expr_ty fuel arr locals, deduce_expr_ty fuel index_expr locals with
      | some lhs, some rhs =>
        let ty : TyS :=
          match lhs.ty, rhs.ty with
          | .Array _ item_ty, .I32 => item_ty
          | .Slice item_ty, .I32 => item_ty
          | _, _ => .Error
        some (.mk ty (.Index lhs rhs))
      | _, _ => none
    | .Var _ => none

mutual
/-- `unify` from typeck.rs: resolve an `ast::Type` to a type shape.
`none` is the `unimplemented!()` panic on a type name other than
`i32`/`u32`/`bool`. -/
def unify : Ast.Type' → Option TyS
  | .Name name =>
    if name = "i32" then some .I32
    else if name = "u32" then some .U32
    else if name = "bool" then some .Bool
    else none
  | .Tuple types => (unify_list types).map TyS.Tuple
  | .Pointer t => (unify t).map TyS.Pointer
  | .Array len t => (unify t).map (TyS.Array len)
  | .Slice item_ty => (unify item_ty).map TyS.Slice
  | .Unit => some .Unit
  | .Function args_ty ret_ty =>
    match unify_list args_ty, unify ret_ty with
    | some args, some ret => some (.Function args ret)
    | _, _ => none

/-- The element mapping of `unify` over a `Vec` of types. -/
def unify_list : List Ast.Type' → Option (List TyS)
  | [] => some []
  | t :: ts =>
    match unify t, unify_list ts with
    | some t', some ts' => some (t' :: ts')
    | _, _ => none
end

/-- `Argument` from typeck.rs. -/
structure Argument where
  name : String
  ty : TyS

/-- The typed `Item` from typeck.rs. -/
inductive Item where
  | Let (name : String) (ty : TyS) (expr : Option TypedExpression)
  | Assignment (lhs : TypedExpression) (operator : Option Ast.Operator)
      (expr : TypedExpression)
  | Expression (expr : TypedExpression)
  | Function (name : String) ( is_extern : Bool) (args : List Argument)
      (ty : TyS) (body : List Item)
  | If (condition : TypedExpression) (arm_true : List Item)
      (arm_false : Option (List Item))
  | ForIn (name : String) (expr : TypedExpression) (body : List Item)
  | Loop (body : List Item)
  | Break
  | Yield (e : TypedExpression)
  | Return (e : TypedExpression)
  | Block (body : List Item)

/-- The parameter loop of the `Function` arm of `infer_types`: resolve
each parameter type and bind it in the environment. -/
def bind_params : Env → List Ast.Param → Option (List TyS × Env)
  | locals, [] => some ([], locals)
  | locals, p :: ps =>
    match unify p.type with
    | none => none
    | some ty =>
      match bind_params (envInsert locals p.name ty) ps with
      | none => none
      | some (tys, locals') => some (ty :: tys, locals')

/-- `infer_types` from typeck.rs: lower an item sequence to typed items,
threading the one mutable environment through siblings and nested bodies.
The result pairs the lowered items with the final environment; `none` is a
panic (or exhaustion of `fuel`, which every theorem below instantiates
above the recursion depth).  A dropped statement (`continue` in Rust)
contributes nothing and checking proceeds. -/
def infer_types : Nat → List Ast.Item → Env → Option TyS → Option (List Item × Env)
  | _, [], locals, _ => some ([], locals)
  | 0, _ :: _, _, _ => none
  | fuel + 1, item :: rest, locals, expected_ret_ty =>
    match item with
    | .Let name oty oexpr =>
      match oexpr with
      | none => infer_types fuel rest locals expected_ret_ty
      | some e =>
        match deduce_expr_ty fuel e locals with
        | none => none
        | some te =>
          let tyRes : Option (Option TyS) :=
            match oty with
            | some t =>
              match unify t with
              | none => none
              | some ty' =>
                if ¬ is_compatible_to ty' te.ty then some none else some (some ty')
            | none => some (some te.ty)
          match tyRes with
          | none => none
          | some none => infer_types fuel rest locals expected_ret_ty
          | some (some ty) =>
            match infer_types fuel rest (envInsert locals name ty) expected_ret_ty with
            | none => none
            | some (items, env') => some (.Let name ty (some te) :: items, env')
    | .Assignment lhs operator expr =>
      match deduce_expr_ty fuel lhs locals, deduce_expr_ty fuel expr locals with
      | some l, some r =>
        if ¬ is_compatible_to l.ty r.ty then infer_types fuel rest locals expected_ret_ty
        else
          match infer_types fuel rest locals expected_ret_ty with
          | none => none
          | some (items, env') => some (.Assignment l operator r :: items, env')
      | _, _ => none
    | .Expr e =>
      match deduce_expr_ty fuel e locals with
      | none => none
      | some te =>
        match infer_types fuel rest locals expected_ret_ty with
        | none => none
        | some (items, env') => some (.Expression te :: items, env')
    | .Function name params ty body =>
      match bind_params locals params with
      | none => none
      | some (args, locals1) =>
        match unify ty with
        | none => none
        | some ret =>
          let locals2 := envInsert locals1 name (.Function args ret)
          match infer_types fuel body locals2 (some ret) with
          | none => none
          | some (body', locals3) =>
            match infer_types fuel rest locals3 expected_ret_ty with
            | none => none
            | some (items, env') =>
              let arglist := (params.zip args).map (fun p => Argument.mk p.1.name p.2)
              some (.Function name false arglist ret body' :: items, env')
    | .Struct _ => infer_types fuel rest locals expected_ret_ty
    | .If condition arm_true arm_false =>
      match deduce_expr_ty fuel condition locals with
      | none => none
      | some cond =>
        if ¬ is_compatible_to cond.ty .Bool then
          infer_types fuel rest locals expected_ret_ty
        else
          match infer_types fuel arm_true locals expected_ret_ty with
          | none => none
          | some (t_items, locals1) =>
            match arm_false with
            | some af =>
              match infer_types fuel af locals1 expected_ret_ty with
              | none => none
              | some (f_items, locals2) =>
                match infer_types fuel rest locals2 expected_ret_ty with
                | none => none
                | some (items, env') =>
                  some (.If cond t_items (some f_items) :: items, env')
            | none =>
              match infer_types fuel rest locals1 expected_ret_ty with
              | none => none
              | some (items, env') => some (.If cond t_items none :: items, env')
    | .ForIn name e body =>
      match deduce_expr_ty fuel e locals with
      | none => none
      | some te =>
        let is_iterable : Bool :=
          match te.ty with
          | .Array _ _ => true
          | .Slice _ => true
          | .Range => true
          | _ => false
        if ¬ is_iterable then infer_types fuel rest locals expected_ret_ty
        else
          match infer_types fuel body (envInsert locals name .I32) expected_ret_ty with
          | none => none
          | some (body', locals1) =>
            match infer_types fuel rest locals1 expected_ret_ty with
            | none => none
            | some (items, env') => some (.ForIn name te body' :: items, env')
    | .Loop body =>
      match infer_types fuel body locals expected_ret_ty with
      | none => none
      | some (body', locals1) =>
        match infer_types fuel rest locals1 expected_ret_ty with
        | none => none
        | some (items, env') => some (.Loop body' :: items, env')
    | .Return e =>
      match expected_ret_ty with
      | none => none
      | some ret =>
        match deduce_expr_ty fuel e locals with
        | none => none
        | some te =>
          if ¬ is_compatible_to te.ty ret then infer_types fuel rest locals expected_ret_ty
          else
            match infer_types fuel rest locals expected_ret_ty with
            | none => none
            | some (items, env') => some (.Return te :: items, env')
    | .Break =>
      match infer_types fuel rest locals expected_ret_ty with
      | none => none
      | some (items, env') => some (.Break :: items, env')
    | .Yield _ => none
    | .Block _ => none

end Tyck

/-! Theorems. -/

mutual
/-- Structural equality is reflexive on type shapes. -/
theorem tyBeqRefl : (t : TyS) → tyBeq t t = true
  | .Bool => rfl
  | .I32 => rfl
  | .U32 => rfl
  | .F32 => rfl
  | .Unit => rfl
  | .Array l t => by simp [tyBeq, tyBeqRefl t]
  | .Slice t => by simp [tyBeq, tyBeqRefl t]
  | .Tuple ts => by simp [tyBeq, tyBeqListRefl ts]
  | .Pointer t => by simp [tyBeq, tyBeqRefl t]
  | .Function a r => by simp [tyBeq, tyBeqListRefl a, tyBeqRefl r]
  | .Other n => by simp [tyBeq]
  | .Range => rfl
  | .Any => rfl
  | .Unknown => rfl
  | .Error => rfl

/-- Reflexivity of elementwise structural equality. -/
theorem tyBeqListRefl : (ts : List TyS) → tyBeqList ts ts = true
  | [] => rfl
  | t :: ts => by simp [tyBeqList, tyBeqRefl t, tyBeqListRefl ts]
end

/-- After allocating a shape missing from the arena, `find` locates it at
the freshly returned handle. -/
theorem arena_find_append_self (a : List TyS) (t : TyS)
    (h : Par.arena_find a t = none) :
    Par.arena_find (a ++ [t]) t = some a.length := by
  induction a with
  | nil => simp [Par.arena_find, tyBeqRefl t]
  | cons x xs ih =>
    simp only [Par.arena_find] at h ⊢
    cases hx : tyBeq x t with
    | true => simp [hx] at h
    | false =>
      simp only [hx, Bool.false_eq_true, if_false, Option.map_eq_none'] at h
      simp [hx, ih h]

/-- C1: On the code as it stands the claim fails: `Lexer::match_special`
never tags a punctuation token `Joint` — it has no spacing tag at all and
always yields `Special::Single`.  Lexing `"->"` gives two tokens whose
values are `Single('-')` and `Single('>')`; `"- >"` lexes identically up
to positions; and every punctuation token, on every input, carries
`Single`.  (parser.rs and main.rs import `PunctKind::{Single, Joint}` from
the lexer module, which this lexer.rs does not define, so the checked-in
lexer contradicts its own callers.) -/
theorem lexer_punct_always_single_never_joint :
    (Lex.next (Lex.from_source "->".toList) =
      .ok ⟨.Special (.Single '-'), ['-'], 1, 1⟩ ⟨"->".toList, 1, 2, 1, 4⟩)
  ∧ (Lex.next ⟨"->".toList, 1, 2, 1, 4⟩ =
      .ok ⟨.Special (.Single '>'), ['>'], 1, 2⟩ ⟨"->".toList, 1, 3, 2, 4⟩)
  ∧ (Lex.next (Lex.from_source "- >".toList) =
      .ok ⟨.Special (.Single '-'), ['-'], 1, 1⟩ ⟨"- >".toList, 1, 2, 1, 4⟩)
  ∧ (∀ (lx : Lex.Lexer) (first : Char),
      ((Lex.match_special first lx).1).value = .Special (.Single first)) := by
  refine ⟨by decide, by decide, by decide, fun lx first => rfl⟩

/-- C2: `"123"` lexes to `IntegralNumber(123)`, `"1.5"` to
`FloatingNumber(1.5)` and `"1e3"` to `FloatingNumber(1000.0)` as claimed,
but `"1_000"` panics: `advance_while_digits` accepts the `'_'` separator
into the lexeme, and the subsequent `parse::<i32>().unwrap()` rejects it. -/
theorem lexer_number_literal_tokens :
    (Lex.next (Lex.from_source "123".toList) =
      .ok ⟨.IntegralNumber 123, "123".toList, 1, 1⟩ ⟨"123".toList, 1, 4, 3, 4⟩)
  ∧ (Lex.next (Lex.from_source "1.5".toList) =
      .ok ⟨.FloatingNumber (mkRat 3 2), "1.5".toList, 1, 1⟩ ⟨"1.5".toList, 1, 4, 3, 4⟩)
  ∧ mkRat 3 2 = (1.5 : Rat)
  ∧ (Lex.next (Lex.from_source "1e3".toList) =
      .ok ⟨.FloatingNumber (mkRat 1000 1), "1e3".toList, 1, 1⟩ ⟨"1e3".toList, 1, 4, 3, 4⟩)
  ∧ mkRat 1000 1 = (1000.0 : Rat)
  ∧ Lex.next (Lex.from_source "1_000".toList) = .panicked := by
  refine ⟨by decide, by decide, by norm_num [Rat.mkRat_eq_div], by decide,
    by norm_num [Rat.mkRat_eq_div], by decide⟩

/-- C3: expression parsing follows the claimed precedence table and
associativity: `1 + 2 * 3` parses to `Add(1, Mul(2, 3))`, `1 * 2 + 3` to
`Add(Mul(1, 2), 3)`, `a.b.c` to `Place(Place(a, b), c)`; the precedences
are `+`,`-` = 1, `*`,`/` = 2, `.` = 3, with exactly `-` and `.`
left-associative among the operators in the table. -/
theorem parser_expr_precedence :
    (Par.parse_expr 8 0 [⟨.int 1, 1, 1⟩, ⟨.punct '+' .Single, 1, 3⟩, ⟨.int 2, 1, 5⟩,
        ⟨.punct '*' .Single, 1, 7⟩, ⟨.int 3, 1, 9⟩] =
      .ok (.InfixE .Add (.Integer 1) (.InfixE .Mul (.Integer 2) (.Integer 3)), []))
  ∧ (Par.parse_expr 8 0 [⟨.int 1, 1, 1⟩, ⟨.punct '*' .Single, 1, 3⟩, ⟨.int 2, 1, 5⟩,
        ⟨.punct '+' .Single, 1, 7⟩, ⟨.int 3, 1, 9⟩] =
      .ok (.InfixE .Add (.InfixE .Mul (.Integer 1) (.Integer 2)) (.Integer 3), []))
  ∧ (Par.parse_expr 8 0 [⟨.ident "a", 1, 1⟩, ⟨.punct '.' .Single, 1, 2⟩,
        ⟨.ident "b", 1, 3⟩, ⟨.punct '.' .Single, 1, 4⟩, ⟨.ident "c", 1, 5⟩] =
      .ok (.Place (.Place (.Identifier "a") (.Identifier "b")) (.Identifier "c"), []))
  ∧ (∀ (k : Par.PunctKind) (l c : Nat),
      Par.get_precedence ⟨.punct '+' k, l, c⟩ = 1
    ∧ Par.get_precedence ⟨.punct '-' k, l, c⟩ = 1
    ∧ Par.get_precedence ⟨.punct '*' k, l, c⟩ = 2
    ∧ Par.get_precedence ⟨.punct '/' k, l, c⟩ = 2
    ∧ Par.get_precedence ⟨.punct '.' k, l, c⟩ = 3
    ∧ Par.is_left_associative ⟨.punct '-' k, l, c⟩ = true
    ∧ Par.is_left_associative ⟨.punct '.' k, l, c⟩ = true
    ∧ Par.is_left_associative ⟨.punct '+' k, l, c⟩ = false
    ∧ Par.is_left_associative ⟨.punct '*' k, l, c⟩ = false
    ∧ Par.is_left_associative ⟨.punct '/' k, l, c⟩ = false) := by
  refine ⟨by rfl, by rfl, by rfl,
    fun k l c => ⟨rfl, rfl, rfl, rfl, rfl, rfl, rfl, rfl, rfl, rfl⟩⟩

/-- C4: the compatibility relation holds on `I32 ~ I32`, fails on
`I32 ~ F32`, accepts an array where a slice is expected
(`Array(3, I32) ~ Slice(I32)`) but not the reverse, and `Any` on either
side is compatible with every type. -/
theorem typeck_is_compatible_cases :
    Tyck.is_compatible_to .I32 .I32 = true
  ∧ Tyck.is_compatible_to .I32 .F32 = false
  ∧ Tyck.is_compatible_to (.Array 3 .I32) (.Slice .I32) = true
  ∧ Tyck.is_compatible_to (.Slice .I32) (.Array 3 .I32) = false
  ∧ (∀ t : TyS,
      Tyck.is_compatible_to .Any t = true ∧ Tyck.is_compatible_to t .Any = true) := by
  refine ⟨rfl, rfl, rfl, rfl, fun t => ⟨?_, ?_⟩⟩ <;> cases t <;> rfl

/-- C5: resolving the type expression `[4]i32` through
`parse_ty`/`make_ty` twice in one arena (at two different source
positions) yields the same handle — the same allocated instance — and
leaves the arena unchanged the second time; in general `make_ty` is
idempotent on any arena and shape. -/
theorem parser_parse_ty_interning :
    (Par.parse_ty 3 [⟨.punct '[' .Single, 1, 1⟩, ⟨.int 4, 1, 2⟩,
        ⟨.punct ']' .Single, 1, 3⟩, ⟨.ident "i32", 1, 4⟩] [] =
      .ok (⟨.Array 4 .I32, 1⟩, [], [.I32, .Array 4 .I32]))
  ∧ (Par.parse_ty 3 [⟨.punct '[' .Single, 2, 1⟩, ⟨.int 4, 2, 2⟩,
        ⟨.punct ']' .Single, 2, 3⟩, ⟨.ident "i32", 2, 4⟩] [.I32, .Array 4 .I32] =
      .ok (⟨.Array 4 .I32, 1⟩, [], [.I32, .Array 4 .I32]))
  ∧ (∀ (a : List TyS) (t : TyS), Par.make_ty (Par.make_ty a t).1 t = Par.make_ty a t) := by
  refine ⟨by rfl, by rfl, fun a t => ?_⟩
  unfold Par.make_ty
  cases h : Par.arena_find a t with
  | some i => simp [h]
  | none => simp [h, Par.arena_alloc, arena_find_append_self a t h]

/-- C6: for an infix expression whose operands deduce successfully, the
expression's type is `Bool` under a comparison/equality operator and the
left operand's type under an arithmetic operator when the operand types
are compatible; incompatible operand types give the expression the
`Error` type, non-fatally. -/
theorem typeck_infix_typing (fuel : Nat) (op : Ast.Operator)
    (l r : Ast.Expression) (env : Tyck.Env) (tl tr : Tyck.TypedExpression)
    (hl : Tyck.deduce_expr_ty fuel l env = some tl)
    (hr : Tyck.deduce_expr_ty fuel r env = some tr) :
    (Tyck.is_compatible_to tl.ty tr.ty = true →
      ((op = .Less ∨ op = .LessEqual ∨ op = .Greater ∨ op = .GreaterEqual ∨
          op = .Equal ∨ op = .NotEqual) →
        Tyck.deduce_expr_ty (fuel + 1) (.InfixE op l r) env =
          some (.mk .Bool (.InfixE op tl tr)))
      ∧ ((op = .Add ∨ op = .Sub ∨ op = .Mul ∨ op = .Div) →
        Tyck.deduce_expr_ty (fuel + 1) (.InfixE op l r) env =
          some (.mk tl.ty (.InfixE op tl tr))))
  ∧ (Tyck.is_compatible_to tl.ty tr.ty = false →
      Tyck.deduce_expr_ty (fuel + 1) (.InfixE op l r) env =
        some (.mk .Error (.InfixE op tl tr))) := by
  refine ⟨fun hc => ⟨?_, ?_⟩, fun hc => ?_⟩
  · rintro (rfl | rfl | rfl | rfl | rfl | rfl) <;>
      simp [Tyck.deduce_expr_ty, hl, hr, hc]
  · rintro (rfl | rfl | rfl | rfl) <;>
      simp [Tyck.deduce_expr_ty, hl, hr, hc]
  · simp [Tyck.deduce_expr_ty, hl, hr, hc]

/-- Witness for C6 at concrete inputs: `1 < 2` gets type `Bool`, and
`1 + 2` gets the left operand's type `I32`. -/
theorem typeck_infix_typing_witness :
    Tyck.deduce_expr_ty 2 (.InfixE .Less (.Integer 1) (.Integer 2)) [] =
      some (.mk .Bool (.InfixE .Less (.mk .I32 (.Integer 1)) (.mk .I32 (.Integer 2))))
  ∧ Tyck.deduce_expr_ty 2 (.InfixE .Add (.Integer 1) (.Integer 2)) [] =
      some (.mk .I32 (.InfixE .Add (.mk .I32 (.Integer 1)) (.mk .I32 (.Integer 2)))) :=
  ⟨((typeck_infix_typing 1 .Less (.Integer 1) (.Integer 2) [] _ _ rfl rfl).1
      rfl).1 (Or.inl rfl),
   ((typeck_infix_typing 1 .Add (.Integer 1) (.Integer 2) [] _ _ rfl rfl).1
      rfl).2 (Or.inl rfl)⟩

/-- C7, counterexample: a prefix negate expression is NOT a fatal defect —
`-1` type checks to `some` result (of type `I32`), not to the `none` that
embeds a panic. -/
theorem typeck_prefix_negate_not_fatal :
    Tyck.deduce_expr_ty 2 (.PrefixE .Negate (.Integer 1)) [] =
      some (.mk .I32 (.PrefixE .Negate (.mk .I32 (.Integer 1))))
  ∧ Tyck.deduce_expr_ty 2 (.PrefixE .Negate (.Integer 1)) [] ≠ none := by
  refine ⟨rfl, fun h => ?_⟩
  rw [show Tyck.deduce_expr_ty 2 (.PrefixE .Negate (.Integer 1)) [] =
      some (.mk .I32 (.PrefixE .Negate (.mk .I32 (.Integer 1)))) from rfl] at h
  exact Option.noConfusion h

/-- C7 as amended: for a prefix expression whose operand deduces
successfully, dereference (`*`) is fatal, `&` yields `Pointer(inner)`,
and negate (`-`) is non-fatal, yielding the operand's own type. -/
theorem typeck_prefix_typing (fuel : Nat) (e : Ast.Expression)
    (env : Tyck.Env) (ti : Tyck.TypedExpression)
    (h : Tyck.deduce_expr_ty fuel e env = some ti) :
    Tyck.deduce_expr_ty (fuel + 1) (.PrefixE .Deref e) env = none
  ∧ Tyck.deduce_expr_ty (fuel + 1) (.PrefixE .Ref e) env =
      some (.mk (.Pointer ti.ty) (.PrefixE .Ref ti))
  ∧ Tyck.deduce_expr_ty (fuel + 1) (.PrefixE .Negate e) env =
      some (.mk ti.ty (.PrefixE .Negate ti)) := by
  refine ⟨?_, ?_, ?_⟩ <;> simp [Tyck.deduce_expr_ty, h]

/-- Witness for C7's amended claim at a concrete input. -/
theorem typeck_prefix_typing_witness :
    Tyck.deduce_expr_ty 2 (.PrefixE .Deref (.Integer 7)) [] = none
  ∧ Tyck.deduce_expr_ty 2 (.PrefixE .Ref (.Integer 7)) [] =
      some (.mk (.Pointer .I32) (.PrefixE .Ref (.mk .I32 (.Integer 7)))) :=
  ⟨(typeck_prefix_typing 1 (.Integer 7) [] _ rfl).1,
   (typeck_prefix_typing 1 (.Integer 7) [] _ rfl).2.1⟩

/-- C8: a call whose callee is an identifier other than `debug` that is
unbound in the environment is fatal (`none`, the embedded panic), while a
plain unresolved identifier expression is non-fatal and `Error`-typed. -/
theorem typeck_call_unbound_callee_fatal (fuel : Nat) (name : String)
    (args : List Ast.Expression) (env : Tyck.Env)
    (hname : name ≠ "debug") (henv : Tyck.envGet env name = none) :
    Tyck.deduce_expr_ty (fuel + 2) (.Call (.Identifier name) args) env = none
  ∧ Tyck.deduce_expr_ty (fuel + 1) (.Identifier name) env =
      some (.mk .Error (.Identifier name)) := by
  have hid : Tyck.deduce_expr_ty (fuel + 1) (.Identifier name) env =
      some (.mk .Error (.Identifier name)) := by
    simp [Tyck.deduce_expr_ty, henv]
  refine ⟨?_, hid⟩
  simp [Tyck.deduce_expr_ty, hid, Tyck.TypedExpression.expr, hname, henv]

/-- Witness for C8: calling the unbound `f` in the empty environment is
fatal, while the bare identifier `f` only gets the `Error` type. -/
theorem typeck_call_unbound_callee_fatal_witness :
    Tyck.deduce_expr_ty 2 (.Call (.Identifier "f") []) [] = none
  ∧ Tyck.deduce_expr_ty 1 (.Identifier "f") [] =
      some (.mk .Error (.Identifier "f")) :=
  ⟨(typeck_call_unbound_callee_fatal 0 "f" [] [] (by decide) rfl).1,
   (typeck_call_unbound_callee_fatal 0 "f" [] [] (by decide) rfl).2⟩

/-- C9: a `let` with no initializer is skipped: type checking the item
sequence starting with it equals type checking the remaining sequence —
no typed binding is emitted, the environment is unchanged, and no failure
is reported. -/
theorem typeck_let_without_initializer_dropped (fuel : Nat) (name : String)
    (oty : Option Ast.Type') (rest : List Ast.Item) (env : Tyck.Env)
    (ert : Option TyS) :
    Tyck.infer_types (fuel + 1) (.Let name oty none :: rest) env ert =
      Tyck.infer_types fuel rest env ert := by
  simp [Tyck.infer_types]

/-- C10: `f()` and the bare `()` are parse errors — the comma-separated
expression list requires at least one expression, so both fail with
`Custom("missing expression")`; and `parse_comma_separated_exprs`, facing
a leading `)`, always fails the same way. -/
theorem parser_empty_expr_list_error :
    Par.parse_expr 4 0 [⟨.ident "f", 1, 1⟩, ⟨.punct '(' .Joint, 1, 2⟩,
        ⟨.punct ')' .Single, 1, 3⟩] = .error (.Custom Par.missingExprMsg)
  ∧ Par.parse_expr 4 0 [⟨.punct '(' .Joint, 1, 1⟩, ⟨.punct ')' .Single, 1, 2⟩] =
      .error (.Custom Par.missingExprMsg)
  ∧ Par.missingExprMsg = "missing expression"
  ∧ (∀ (fuel : Nat) (rest : Par.TokStream),
      Par.parse_comma_separated_exprs (fuel + 2) (⟨.punct ')' .Single, 1, 1⟩ :: rest) =
        .error (.Custom Par.missingExprMsg)) := by
  refine ⟨by rfl, by rfl, by rfl, fun fuel rest => ?_⟩
  simp [Par.parse_comma_separated_exprs, Par.parse_comma_separated_core,
    Par.parse_expr, Par.parse_expr_opt, Par.require_expr, Par.peekTok,
    Par.PTok.get_type]
